import Mathlib

/-!
Shallow embedding of the vocdoni/eth-storage-proof MiniMe checkpoint engine
(`token/minime/minime.go`) and the ERC-20 metadata wrapper
(`token/erc20/erc20token.go`).

Modelling conventions:
* 32-byte storage words are `List Nat` (big-endian byte lists); big.Int values
  are `Nat`/`Int` with explicit `% 2^64` where the Go code calls `Uint64()`
  and explicit `% 2^256` where a value is re-encoded as a 32-byte hash.
* Remote reads (`StorageAt`), the keccak-derived slot bases
  (`helpers.GetMapSlot`, `helpers.HashFromPosition`), the ERC-20 balance call
  and `ParseMinimeValue` (all of which live outside the two embedded source
  files) are fields of an environment record `MinimeEnv`; the engine logic
  itself (slot arithmetic, branch selection, the discovery loop and the
  backward scan) is translated statement by statement from the Go source.
* Fallible remote calls return `Except String`, errors being the Go error
  strings.
-/

namespace EthStorage

/-- A raw storage word: a big-endian list of byte values. -/
abbrev Word := List Nat

/-- Value of a big-endian byte list as an unsigned integer,
as `big.Int.SetBytes` computes it. -/
def bytesToNat (bs : Word) : Nat :=
  bs.foldl (fun acc b => acc * 256 + b) 0

/-- `common.TrimLeftZeroes`: drop leading zero bytes. -/
def trimLeftZeroes (bs : Word) : Word :=
  bs.dropWhile (fun b => b == 0)

/-- Reinterpretation of the low 64 bits of a natural number as a signed
64-bit integer: the composition `int(x.Uint64())` applied by the Go code
(`big.Int.Uint64` keeps the low 64 bits, `int` is 64-bit and signed). -/
def int64OfUint64 (n : Nat) : Int :=
  if n % 2 ^ 64 < 2 ^ 63 then ((n % 2 ^ 64 : Nat) : Int)
  else ((n % 2 ^ 64 : Nat) : Int) - 2 ^ 64

/-- The checkpoint-array length decoded from the raw word at the mapping
slot: `int(new(big.Int).SetBytes(common.TrimLeftZeroes(value)).Uint64())`
(minime.go line 195). -/
def arraySizeOfWord (value : Word) : Int :=
  int64OfUint64 (bytesToNat (trimLeftZeroes value))

/-- Storage slot of checkpoint-array `position` (1-based): the keccak hash
base `H` of the mapping slot plus `position - 1`, re-encoded as a 32-byte
hash (minime.go lines 168-172: `v := SetBytes(vf); v.Add(v, position-1);
common.BytesToHash(v.Bytes())`; `Bytes` takes the absolute value and
`BytesToHash` keeps the trailing 32 bytes). -/
def arraySlotOf (H : Nat) (position : Int) : Nat :=
  (((H : Int) + (position - 1)).natAbs) % 2 ^ 256

/-- Environment of one holder: the external collaborators consumed by the
checkpoint engine.  `mapSlot islot` is the value of
`helpers.GetMapSlot(holder, islot)` (the keccak-derived slot of the array
length word), `hashBase islot` the value of
`helpers.HashFromPosition(mapSlot)` (the keccak-derived base of the array
entries), `storageAt slot block` the remote `StorageAt` read (`none` =
latest block), `balance` the ERC-20 `Balance` call, `tokenData` the
`GetTokenData` call (only its success/failure matters here), and `parse` is
`ParseMinimeValue` at the token's decimals, returning (balance, block). -/
structure MinimeEnv where
  tokenData : Except String Unit
  balance : Except String Rat
  mapSlot : Nat → Nat
  hashBase : Nat → Nat
  storageAt : Nat → Option Nat → Except String Word
  parse : Word → Rat × Nat

/-- `getMinimeAtPosition` (minime.go lines 156-181): returns the decoded
balance, the checkpoint block and the storage key of the given 1-based
array position, read at the given block (`none` = latest). -/
def getMinimeAtPosition (env : MinimeEnv) (islot : Nat) (position : Int)
    (block : Option Nat) : Except String (Rat × Nat × Nat) :=
  match env.tokenData with
  | .error e => .error e
  | .ok _ =>
    let slot := arraySlotOf (env.hashBase islot) position
    match env.storageAt slot block with
    | .error e => .error e
    | .ok value => .ok ((env.parse value).1, (env.parse value).2, slot)

/-- `getMinimeArraySize` (minime.go lines 183-196): reads the word at the
mapping slot (at the latest block) and decodes the array length. -/
def getMinimeArraySize (env : MinimeEnv) (islot : Nat) : Except String Int :=
  match env.storageAt (env.mapSlot islot) none with
  | .error e => .error e
  | .ok value => .ok (arraySizeOfWord value)

/-- The backward scan of `GetProof` (minime.go lines 116-138):
`for i := checkPointsSize - 1; i > 0; i--`, the fuel argument being the
loop variable `i`.  Each iteration reads position `i - 1` at the target
block; if its block number (as uint64) is at least the target block (as
uint64), position `i` is read and must decode as the nil sentinel, and the
key pair (slot of `i-1`, slot of `i`) is emitted; otherwise the loop
continues downward. -/
def scanFrom (env : MinimeEnv) (islot : Nat) (block : Nat) :
    Nat → Except String (Option (Nat × Nat))
  | 0 => .ok none
  | i + 1 =>
    match getMinimeAtPosition env islot (i : Int) (some block) with
    | .error e => .error ("cannot get minime: " ++ e)
    | .ok (_, checkpointBlock, prevSlot) =>
      if checkpointBlock % 2 ^ 64 ≥ block % 2 ^ 64 then
        match getMinimeAtPosition env islot ((i : Int) + 1) (some block) with
        | .error e => .error e
        | .ok (balance, mblock, currSlot) =>
          if 0 < balance then .error "proof of nil has a balance value"
          else if mblock % 2 ^ 64 > 0 then .error "proof of nil has a block value"
          else .ok (some (prevSlot, currSlot))
      else scanFrom env islot block i

/-- `GetProof` (minime.go lines 92-145), up to the selected storage keys.
The final delegation to `erc20.GetProof` (the `eth_getProof` fetch) is an
external collaborator and out of scope; the function returns the key list
the Go code would pass to it.  First branch: if the target block (uint64)
is at least the block of the checkpoint at position `count` read at the
target block, emit keys for positions `count` and `count + 1`.  Otherwise
run the backward scan; if it selects nothing, fail with
"checkpoint not found". -/
def GetProof (env : MinimeEnv) (block : Nat) (islot : Nat) :
    Except String (List Nat) :=
  match getMinimeArraySize env islot with
  | .error e => .error ("cannot fetch minime array size: " ++ e)
  | .ok checkPointsSize =>
    match getMinimeAtPosition env islot checkPointsSize (some block) with
    | .error e => .error ("cannot get minime: " ++ e)
    | .ok (_, mblock, slot) =>
      if block % 2 ^ 64 ≥ mblock % 2 ^ 64 then
        match getMinimeAtPosition env islot (checkPointsSize + 1) (some block) with
        | .error e => .error e
        | .ok (_, _, slot2) => .ok [slot, slot2]
      else
        match scanFrom env islot block (checkPointsSize - 1).toNat with
        | .error e => .error e
        | .ok none => .error "checkpoint not found"
        | .ok (some (k1, k2)) => .ok [k1, k2]

/-- `maxIterationsForDiscover` (minime.go line 19). -/
def maxIterationsForDiscover : Nat := 20

/-- The candidate loop of `DiscoverSlot` (minime.go lines 48-75), over the
list of remaining candidate slot indices.  An array-size read error aborts
the whole operation; a size `<= 0`, a failing checkpoint read, a zero
(uint64) checkpoint block, or a balance mismatch skip to the next
candidate; a balance match returns the candidate and the decoded amount. -/
def discoverFrom (env : MinimeEnv) (balance : Rat) :
    List Nat → Except String (Option (Nat × Rat))
  | [] => .ok none
  | i :: rest =>
    match getMinimeArraySize env i with
    | .error e => .error e
    | .ok checkPointsSize =>
      if checkPointsSize ≤ 0 then discoverFrom env balance rest
      else
        match getMinimeAtPosition env i checkPointsSize none with
        | .error _ => discoverFrom env balance rest
        | .ok (amount, mblock, _) =>
          if mblock % 2 ^ 64 = 0 then discoverFrom env balance rest
          else if amount = balance then .ok (some (i, amount))
          else discoverFrom env balance rest

/-- `DiscoverSlot` (minime.go lines 36-80): fetches the holder's current
balance as the oracle, runs the candidate loop over indices
`0 .. maxIterationsForDiscover - 1`, and fails with
`ErrSlotNotFound` ("storage slot not found") when no candidate matches. -/
def DiscoverSlot (env : MinimeEnv) : Except String (Nat × Rat) :=
  match env.balance with
  | .error e => .error e
  | .ok balance =>
    match discoverFrom env balance (List.range maxIterationsForDiscover) with
    | .error e => .error e
    | .ok none => .error "storage slot not found"
    | .ok (some r) => .ok r

/-- A candidate slot index is selectable by the discovery loop: its array
size reads as a positive value, its top entry reads successfully, the
decoded checkpoint block is nonzero as a uint64, and the decoded amount
equals the oracle balance. -/
def qualifies (env : MinimeEnv) (balance : Rat) (i : Nat) : Prop :=
  ∃ size amount mblock slot,
    getMinimeArraySize env i = .ok size ∧ 0 < size ∧
    getMinimeAtPosition env i size none = .ok (amount, mblock, slot) ∧
    mblock % 2 ^ 64 ≠ 0 ∧ amount = balance

/-! ## The ERC-20 metadata wrapper (`erc20token.go`) -/

/-- The fields of `TokenData` filled in by `GetTokenData` (erc20token.go);
the `Address` field of the Go struct is copied from the receiver and never
read here, so it is omitted. -/
structure TokenData where
  name : String
  symbol : String
  decimals : Nat
  totalSupply : Int
deriving DecidableEq

/-- Results of the four remote contract calls consumed by `GetTokenData`
(`TokenName`, `TokenSymbol`, `TokenDecimals`, `TokenTotalSupply`), each a
thin wrapper around an external ABI call. -/
structure TokenCalls where
  tokenName : Except String String
  tokenSymbol : Except String String
  tokenDecimals : Except String Nat
  tokenTotalSupply : Except String Int

/-- Contiguous-sublist test on character lists, the semantics of Go
`strings.Contains`. -/
def listInfixOf (needle : List Char) : List Char → Bool
  | [] => needle.isEmpty
  | c :: rest => needle.isPrefixOf (c :: rest) || listInfixOf needle rest

/-- `strings.Contains s sub`. -/
def strContains (s sub : String) : Bool :=
  listInfixOf sub.data s.data

/-- `GetTokenData` (erc20token.go lines 47-76): a failing `name`/`symbol`
call whose error mentions "unmarshal an empty string" degrades to a fixed
placeholder; any other `name`/`symbol` failure and any `decimals` or
`totalSupply` failure aborts with a wrapped error. -/
def GetTokenData (c : TokenCalls) : Except String TokenData :=
  let nameRes : Except String String :=
    match c.tokenName with
    | .ok n => .ok n
    | .error e =>
      if strContains e "unmarshal an empty string" then .ok "unknown-name"
      else .error ("unable to get token name data: " ++ e)
  match nameRes with
  | .error e => .error e
  | .ok nm =>
    let symRes : Except String String :=
      match c.tokenSymbol with
      | .ok s => .ok s
      | .error e =>
        if strContains e "unmarshal an empty string" then .ok "unknown-symbol"
        else .error ("unable to get token symbol data: " ++ e)
    match symRes with
    | .error e => .error e
    | .ok sy =>
      match c.tokenDecimals with
      | .error e => .error ("unable to get token decimals data: " ++ e)
      | .ok d =>
        match c.tokenTotalSupply with
        | .error e => .error ("unable to get token supply data: " ++ e)
        | .ok ts => .ok { name := nm, symbol := sy, decimals := d, totalSupply := ts }

/-! ## Concrete environments for the explicit test scenarios

Each environment fixes the keccak-derived slot bases to small transparent
numbers (`mapSlot` at 500, entry base `hashBase` at 1000 for slot index 0)
so that position `p` of the checkpoint array lives at slot `1000 + p - 1`.
Reads are block-insensitive, as in a synthetic test fixture. -/

/-- Storage content for the four-checkpoint scenario of the spec:
entries at positions 1..4 carry blocks 70, 80, 90, 100; the length word
(slot 500) holds 4; every other slot is the zero word. -/
def exWord1 (slot : Nat) : Word :=
  if slot = 500 then [4]
  else if slot = 1000 then [70]
  else if slot = 1001 then [80]
  else if slot = 1002 then [90]
  else if slot = 1003 then [100]
  else []

/-- Environment with checkpoints `[70, 80, 90, 100]` at positions 1..4.
The decoder reads the whole word as the block number with balance 0. -/
def exEnv1 : MinimeEnv where
  tokenData := .ok ()
  balance := .ok 0
  mapSlot := fun _ => 500
  hashBase := fun _ => 1000
  storageAt := fun slot _ => .ok (exWord1 slot)
  parse := fun w => (0, bytesToNat w)

/-- Storage content for the single-checkpoint scenario: one entry at
position 1 carrying block 100, length word 1. -/
def exWord3 (slot : Nat) : Word :=
  if slot = 500 then [1]
  else if slot = 1000 then [100]
  else []

/-- Environment with the single checkpoint `[100]`. -/
def exEnv3 : MinimeEnv where
  tokenData := .ok ()
  balance := .ok 0
  mapSlot := fun _ => 500
  hashBase := fun _ => 1000
  storageAt := fun slot _ => .ok (exWord3 slot)
  parse := fun w => (0, bytesToNat w)

/-- Storage content with one checkpoint at block 100 (position 1) and a
nonzero word at position 2, the slot one past the known end. -/
def exWord2 (slot : Nat) : Word :=
  if slot = 500 then [1]
  else if slot = 1000 then [100]
  else if slot = 1001 then [5]
  else []

/-- Environment whose proof-of-nil position (position 2 = count + 1)
decodes with block number 5, violating the sentinel expectation. -/
def exEnv2 : MinimeEnv where
  tokenData := .ok ()
  balance := .ok 0
  mapSlot := fun _ => 500
  hashBase := fun _ => 1000
  storageAt := fun slot _ => .ok (exWord2 slot)
  parse := fun w => (0, bytesToNat w)

/-- Storage content for the backward-scan sentinel check: length 2,
position 0 (out of range, slot 999) decodes with block 200, position 1
with balance 7 and block 0, position 2 with block 180. -/
def exWordW2 (slot : Nat) : Word :=
  if slot = 500 then [2]
  else if slot = 999 then [0, 200]
  else if slot = 1000 then [7]
  else if slot = 1001 then [0, 180]
  else []

/-- Environment exercising the backward-scan branch with a selected
position whose decoded balance is positive.  The decoder takes the first
byte as the balance and the remaining bytes as the block number. -/
def exEnvW2 : MinimeEnv where
  tokenData := .ok ()
  balance := .ok 0
  mapSlot := fun _ => 500
  hashBase := fun _ => 1000
  storageAt := fun slot _ => .ok (exWordW2 slot)
  parse := fun w => ((w.headD 0 : Rat), bytesToNat w.tail)

/-- Storage content for a target block older than both checkpoints: length
2, entries at blocks 70 and 100, everything else zero. -/
def exWordW4 (slot : Nat) : Word :=
  if slot = 500 then [2]
  else if slot = 1000 then [70]
  else if slot = 1001 then [100]
  else []

/-- Environment with checkpoints `[70, 100]`. -/
def exEnvW4 : MinimeEnv where
  tokenData := .ok ()
  balance := .ok 0
  mapSlot := fun _ => 500
  hashBase := fun _ => 1000
  storageAt := fun slot _ => .ok (exWordW4 slot)
  parse := fun w => (0, bytesToNat w)

/-- Storage content for the discovery scenario: candidate 0 has length
word 1 at slot 100 and its top entry at slot 10000 decodes as balance 5 at
block 1; all other candidates read as zero words. -/
def exWordC5 (slot : Nat) : Word :=
  if slot = 100 then [1]
  else if slot = 10000 then [5, 1]
  else []

/-- Environment in which candidate slot index 0 qualifies for discovery
with balance 5. -/
def exEnvC5 : MinimeEnv where
  tokenData := .ok ()
  balance := .ok 5
  mapSlot := fun i => 100 + i
  hashBase := fun i => 10000 + 100 * i
  storageAt := fun slot _ => .ok (exWordC5 slot)
  parse := fun w => ((w.headD 0 : Rat), bytesToNat w.tail)

/-- Storage content for the fatal length-read scenario: candidate 1 has a
qualifying checkpoint (length word at slot 501, entry at slot 2000). -/
def exWordC6 (slot : Nat) : Word :=
  if slot = 501 then [1]
  else if slot = 2000 then [5, 1]
  else []

/-- Environment whose candidate 0 array-length read fails with "boom"
while candidate 1 would qualify with balance 5. -/
def exEnvC6 : MinimeEnv where
  tokenData := .ok ()
  balance := .ok 5
  mapSlot := fun i => 500 + i
  hashBase := fun i => 1000 * (i + 1)
  storageAt := fun slot _ => if slot = 500 then .error "boom" else .ok (exWordC6 slot)
  parse := fun w => ((w.headD 0 : Rat), bytesToNat w.tail)

/-- Environment whose candidate 0 has a positive length word but a failing
top-entry read, while candidate 1 qualifies with balance 5. -/
def exEnvC6b : MinimeEnv where
  tokenData := .ok ()
  balance := .ok 5
  mapSlot := fun i => 500 + i
  hashBase := fun i => 1000 * (i + 1)
  storageAt := fun slot _ =>
    if slot = 500 then .ok [1]
    else if slot = 501 then .ok [1]
    else if slot = 2000 then .ok [5, 1]
    else .error "read failed"
  parse := fun w => ((w.headD 0 : Rat), bytesToNat w.tail)

/-- A 32-byte storage word whose unsigned big-endian value is `2 ^ 64`. -/
def exWord8 : Word :=
  List.replicate 23 0 ++ 1 :: List.replicate 8 0

/-- Environment whose array-length word has value `2 ^ 64`. -/
def exEnv8 : MinimeEnv where
  tokenData := .ok ()
  balance := .ok 0
  mapSlot := fun _ => 500
  hashBase := fun _ => 1000
  storageAt := fun _ _ => .ok exWord8
  parse := fun w => (0, bytesToNat w)

/-- Environment whose array-length word has the small value 3. -/
def exEnv8b : MinimeEnv where
  tokenData := .ok ()
  balance := .ok 0
  mapSlot := fun _ => 500
  hashBase := fun _ => 1000
  storageAt := fun _ _ => .ok [3]
  parse := fun w => (0, bytesToNat w)

/-- Contract-call results whose `name` call fails with the
decode-of-empty-result error and whose other calls succeed. -/
def exCalls9 : TokenCalls where
  tokenName := .error "abi: attempting to unmarshal an empty string while arguments are expected"
  tokenSymbol := .ok "TKN"
  tokenDecimals := .ok 18
  tokenTotalSupply := .ok 1000000

/-! ## Helper lemmas -/

/-- A successful `getMinimeAtPosition` read returns the slot computed by
`arraySlotOf` from the entry hash base and the position. -/
lemma getMinimeAtPosition_slot (env : MinimeEnv) (islot : Nat) (position : Int)
    (block : Option Nat) (b : Rat) (mb s : Nat)
    (h : getMinimeAtPosition env islot position block = .ok (b, mb, s)) :
    s = arraySlotOf (env.hashBase islot) position := by
  unfold getMinimeAtPosition at h
  split at h
  · simp at h
  · dsimp only at h
    split at h
    · simp at h
    · simp only [Except.ok.injEq, Prod.mk.injEq] at h
      exact h.2.2.symm

/-- Iterations of the backward scan whose bracketing condition fails are
skipped: the scan from `n` equals the scan from `i` whenever every loop
index `j` with `i < j ≤ n` reads successfully with a checkpoint block
(uint64) strictly below the target block (uint64). -/
lemma scanFrom_skip (env : MinimeEnv) (islot block : Nat) :
    ∀ n i, i ≤ n →
      (∀ j, i < j → j ≤ n →
        ∃ b cb s,
          getMinimeAtPosition env islot ((j - 1 : Nat) : Int) (some block) = .ok (b, cb, s) ∧
            cb % 2 ^ 64 < block % 2 ^ 64) →
      scanFrom env islot block n = scanFrom env islot block i := by
  intro n
  induction n with
  | zero =>
    intro i hi _
    have : i = 0 := Nat.le_zero.mp hi
    rw [this]
  | succ n ih =>
    intro i hi hskip
    rcases Nat.lt_or_ge i (n + 1) with hlt | hge
    · have hin : i ≤ n := Nat.lt_succ_iff.mp hlt
      obtain ⟨b, cb, s, hread, hcb⟩ := hskip (n + 1) (by omega) le_rfl
      simp only [Nat.add_sub_cancel] at hread
      have hstep : scanFrom env islot block (n + 1) = scanFrom env islot block n := by
        simp only [scanFrom, hread]
        rw [if_neg (not_le.mpr hcb)]
      rw [hstep]
      exact ih i hin (fun j hj1 hj2 => hskip j hj1 (by omega))
    · have : i = n + 1 := le_antisymm hi hge
      rw [this]

/-! ## Claims C1, C3, C4: checkpoint selection -/

/-- C1 (code behavior at the failing input): with checkpoints at blocks
70, 80, 90, 100 at positions 1..4 and target block 87, `GetProof` fails
with "checkpoint not found" instead of returning the keys of positions 2
and 3 promised by the spec and by the function's own documentation
comment: the backward scan compares the block of position `i - 1` against
the target and no position of this array satisfies
`checkpointBlock >= targetBlock`. -/
theorem C1_code_behavior : GetProof exEnv1 87 0 = .error "checkpoint not found" := rfl

/-- C3: whenever the checkpoint read at position `count` (the array size)
at the target block decodes with a block number at most the target block
(blocks fitting in 64 bits, as Ethereum block numbers do), and the read one
past the end succeeds, `GetProof` returns exactly the keys of positions
`count` and `count + 1`. -/
theorem C3_at_or_beyond_newest (env : MinimeEnv) (block islot : Nat) (size : Int)
    (b0 b1 : Rat) (mb mb2 s0 s2 : Nat)
    (h1 : getMinimeArraySize env islot = .ok size)
    (h2 : getMinimeAtPosition env islot size (some block) = .ok (b0, mb, s0))
    (h3 : mb ≤ block) (h4 : block < 2 ^ 64)
    (h5 : getMinimeAtPosition env islot (size + 1) (some block) = .ok (b1, mb2, s2)) :
    GetProof env block islot =
      .ok [arraySlotOf (env.hashBase islot) size,
           arraySlotOf (env.hashBase islot) (size + 1)] := by
  have hs0 := getMinimeAtPosition_slot env islot size (some block) b0 mb s0 h2
  have hs2 := getMinimeAtPosition_slot env islot (size + 1) (some block) b1 mb2 s2 h5
  have hge : block % 2 ^ 64 ≥ mb % 2 ^ 64 := by
    rw [Nat.mod_eq_of_lt h4, Nat.mod_eq_of_lt (lt_of_le_of_lt h3 h4)]
    exact h3
  unfold GetProof
  rw [h1]
  simp only [h2, hs0, hs2, if_pos hge, h5]

/-- Witness for C3: the single checkpoint `[100]` with target block 105
yields the keys of positions 1 and 2 (slots 1000 and 1001). -/
theorem C3_witness : GetProof exEnv3 105 0 = .ok [1000, 1001] := by
  have h := C3_at_or_beyond_newest exEnv3 105 0 1 0 0 100 0 1000 1001 rfl rfl
    (by norm_num) (by norm_num) rfl
  rw [h]
  rfl

/-- C4 (counterexample to the stated example): for target block 50 against
the checkpoints `[70, 80, 90, 100]`, `GetProof` does not fail with
"checkpoint not found": the scan selects `i = 3` (position 2 carries block
80 >= 50) and then aborts because position 3 decodes with block 90. -/
theorem C4_counterexample :
    GetProof exEnv1 50 0 = .error "proof of nil has a block value" := rfl

/-- C4 (amended): "checkpoint not found" is the error exactly when the
at-or-beyond-newest branch is not taken and the backward scan exhausts all
loop indices `count - 1` down to 1 with every read succeeding and every
bracketing comparison failing. -/
theorem C4_amended (env : MinimeEnv) (block islot : Nat) (size : Int)
    (b0 : Rat) (mb s0 : Nat)
    (h1 : getMinimeArraySize env islot = .ok size)
    (h2 : getMinimeAtPosition env islot size (some block) = .ok (b0, mb, s0))
    (h3 : block % 2 ^ 64 < mb % 2 ^ 64)
    (h4 : ∀ j, 0 < j → j ≤ (size - 1).toNat →
      ∃ b cb s,
        getMinimeAtPosition env islot ((j - 1 : Nat) : Int) (some block) = .ok (b, cb, s) ∧
          cb % 2 ^ 64 < block % 2 ^ 64) :
    GetProof env block islot = .error "checkpoint not found" := by
  unfold GetProof
  rw [h1]
  simp only [h2, if_neg (not_le.mpr h3)]
  rw [scanFrom_skip env islot block ((size - 1).toNat) 0 (Nat.zero_le _)
    (fun j hj1 hj2 => h4 j hj1 hj2)]
  rfl

/-- Witness for C4 (amended): checkpoints `[70, 100]` with target block 87;
the top checkpoint (block 100) exceeds the target and the single scanned
position reads block 0, so the scan exhausts and `GetProof` fails with
"checkpoint not found". -/
theorem C4_witness : GetProof exEnvW4 87 0 = .error "checkpoint not found" := by
  refine C4_amended exEnvW4 87 0 2 0 100 1001 rfl rfl (by norm_num) ?_
  intro j hj1 hj2
  have : j = 1 := by
    simp only [show ((2 : Int) - 1).toNat = 1 by rfl] at hj2
    omega
  rw [this]
  exact ⟨0, 0, 999, rfl, by norm_num⟩

/-! ## Claim C2: the proof-of-nil sentinel check -/

/-- C2 (counterexample): in the at-or-beyond-newest branch the word at
position `count + 1` is never validated.  With one checkpoint at block 100,
target block 105 and the word at position 2 decoding with block number 5,
`GetProof` succeeds with the key pair instead of failing with an
invariant-violation error. -/
theorem C2_counterexample :
    GetProof exEnv2 105 0 = .ok [1000, 1001] ∧ (exEnv2.parse (exWord2 1001)).2 = 5 :=
  ⟨rfl, rfl⟩

/-- C2 (amended): the sentinel check exists only in the backward-scan
branch.  When that branch selects loop index `m + 1` (every higher index
having failed the bracketing comparison), a decoded balance greater than
zero at position `m + 1` fails with "proof of nil has a balance value",
and otherwise a block number that is nonzero as a uint64 fails with
"proof of nil has a block value". -/
theorem C2_amended (env : MinimeEnv) (block islot : Nat) (size : Int) (m : Nat)
    (b0 b1 bal : Rat) (mb cb blk prevSlot currSlot s0 : Nat)
    (h1 : getMinimeArraySize env islot = .ok size)
    (h2 : getMinimeAtPosition env islot size (some block) = .ok (b0, mb, s0))
    (h3 : block % 2 ^ 64 < mb % 2 ^ 64)
    (h4 : m + 1 ≤ (size - 1).toNat)
    (h5 : ∀ j, m + 1 < j → j ≤ (size - 1).toNat →
      ∃ b cb2 s,
        getMinimeAtPosition env islot ((j - 1 : Nat) : Int) (some block) = .ok (b, cb2, s) ∧
          cb2 % 2 ^ 64 < block % 2 ^ 64)
    (h6 : getMinimeAtPosition env islot (m : Int) (some block) = .ok (b1, cb, prevSlot))
    (h7 : block % 2 ^ 64 ≤ cb % 2 ^ 64)
    (h8 : getMinimeAtPosition env islot ((m : Int) + 1) (some block) = .ok (bal, blk, currSlot)) :
    (0 < bal → GetProof env block islot = .error "proof of nil has a balance value") ∧
      (bal ≤ 0 → 0 < blk % 2 ^ 64 →
        GetProof env block islot = .error "proof of nil has a block value") := by
  have hscan : scanFrom env islot block (m + 1) =
      (if 0 < bal then .error "proof of nil has a balance value"
       else if blk % 2 ^ 64 > 0 then .error "proof of nil has a block value"
       else .ok (some (prevSlot, currSlot))) := by
    simp only [scanFrom, h6, if_pos h7, h8]
  have hget : GetProof env block islot =
      (match scanFrom env islot block (m + 1) with
       | .error e => .error e
       | .ok none => .error "checkpoint not found"
       | .ok (some (k1, k2)) => .ok [k1, k2] : Except String (List Nat)) := by
    unfold GetProof
    rw [h1]
    simp only [h2, if_neg (not_le.mpr h3)]
    rw [scanFrom_skip env islot block ((size - 1).toNat) (m + 1) h4 h5]
  constructor
  · intro hbal
    rw [hget, hscan, if_pos hbal]
  · intro hbal hblk
    rw [hget, hscan, if_neg (not_lt.mpr hbal), if_pos hblk]

/-- Witness for C2 (amended): a two-entry array whose scanned position 1
decodes with balance 7; the scan selects loop index 1 (position 0 decodes
with block 200, at or above the target 150) and `GetProof` fails with
"proof of nil has a balance value". -/
theorem C2_witness : GetProof exEnvW2 150 0 = .error "proof of nil has a balance value" := by
  have h := C2_amended exEnvW2 150 0 2 0 0 0 7 180 200 0 999 1000 1001 rfl rfl
    (by norm_num) (by norm_num) (fun j hj1 hj2 => absurd (lt_of_lt_of_le hj1 hj2) (by norm_num))
    rfl (by norm_num) rfl
  exact h.1 (by norm_num)

/-! ## Claim C10: the out-of-array read at position 0 -/

/-- C10: the backward scan's final loop index `i = 1` reads position 0,
whose storage key is the entry hash base minus one, one 256-bit word below
the key of position 1 (the array's first entry) and outside the declared
index range `1..count`; the word found there decodes through the same
parser and its block number participates in the bracketing comparison
(when it is below the target the scan falls through and terminates). -/
theorem C10_out_of_range_read (env : MinimeEnv) (islot block : Nat) (w : Word)
    (hH1 : 1 ≤ env.hashBase islot) (hH2 : env.hashBase islot < 2 ^ 256)
    (htok : env.tokenData = .ok ())
    (hw : env.storageAt (env.hashBase islot - 1) (some block) = .ok w) :
    arraySlotOf (env.hashBase islot) 0 = env.hashBase islot - 1 ∧
      arraySlotOf (env.hashBase islot) 1 = env.hashBase islot ∧
      getMinimeAtPosition env islot 0 (some block) =
        .ok ((env.parse w).1, (env.parse w).2, env.hashBase islot - 1) ∧
      ((env.parse w).2 % 2 ^ 64 < block % 2 ^ 64 → scanFrom env islot block 1 = .ok none) := by
  have hs0 : arraySlotOf (env.hashBase islot) 0 = env.hashBase islot - 1 := by
    unfold arraySlotOf
    have habs : ((env.hashBase islot : Int) + (0 - 1)).natAbs = env.hashBase islot - 1 := by
      omega
    rw [habs, Nat.mod_eq_of_lt (by omega)]
  have hs1 : arraySlotOf (env.hashBase islot) 1 = env.hashBase islot := by
    unfold arraySlotOf
    have habs : ((env.hashBase islot : Int) + (1 - 1)).natAbs = env.hashBase islot := by
      omega
    rw [habs, Nat.mod_eq_of_lt hH2]
  have hpos0 : getMinimeAtPosition env islot 0 (some block) =
      .ok ((env.parse w).1, (env.parse w).2, env.hashBase islot - 1) := by
    simp only [getMinimeAtPosition, htok]
    rw [hs0, hw]
  refine ⟨hs0, hs1, hpos0, ?_⟩
  intro hlt
  simp only [scanFrom, Nat.cast_zero, hpos0]
  rw [if_neg (not_le.mpr hlt)]

/-- Witness for C10: in the four-checkpoint environment (hash base 1000)
position 0 lives at slot 999 and the terminating scan behavior holds at
target block 87. -/
theorem C10_witness :
    arraySlotOf (exEnv1.hashBase 0) 0 = 999 ∧ scanFrom exEnv1 0 87 1 = .ok none := by
  have h := C10_out_of_range_read exEnv1 0 87 [] (by decide) (by decide) rfl rfl
  exact ⟨h.1, h.2.2.2 (by decide)⟩

/-! ## Claims C5, C6, C7: slot discovery -/

/-- Candidates whose array size reads successfully but which do not
qualify are skipped by the discovery loop. -/
lemma discoverFrom_append_skip (env : MinimeEnv) (bal : Rat) :
    ∀ l1 l2 : List Nat,
      (∀ j ∈ l1, ∃ s, getMinimeArraySize env j = .ok s) →
      (∀ j ∈ l1, ¬ qualifies env bal j) →
      discoverFrom env bal (l1 ++ l2) = discoverFrom env bal l2 := by
  intro l1
  induction l1 with
  | nil => intro l2 _ _; rfl
  | cons j t ih =>
    intro l2 hsz hnq
    obtain ⟨s, hs⟩ := hsz j (List.mem_cons_self j t)
    have hnqj := hnq j (List.mem_cons_self j t)
    have htail : discoverFrom env bal (t ++ l2) = discoverFrom env bal l2 :=
      ih l2 (fun x hx => hsz x (List.mem_cons_of_mem j hx))
        (fun x hx => hnq x (List.mem_cons_of_mem j hx))
    show discoverFrom env bal (j :: (t ++ l2)) = discoverFrom env bal l2
    simp only [discoverFrom, hs]
    by_cases hle : s ≤ 0
    · rw [if_pos hle]; exact htail
    · rw [if_neg hle]
      cases hread : getMinimeAtPosition env j s none with
      | error e => exact htail
      | ok trip =>
        obtain ⟨a, b, sl⟩ := trip
        show (if b % 2 ^ 64 = 0 then discoverFrom env bal (t ++ l2)
          else if a = bal then Except.ok (some (j, a))
          else discoverFrom env bal (t ++ l2)) = discoverFrom env bal l2
        by_cases hb : b % 2 ^ 64 = 0
        · rw [if_pos hb]; exact htail
        · rw [if_neg hb]
          by_cases ha : a = bal
          · exact absurd ⟨s, a, b, sl, hs, by omega, hread, hb, ha⟩ hnqj
          · rw [if_neg ha]; exact htail

/-- If no candidate in the list qualifies (and every array-size read in it
succeeds), the discovery loop falls off the end. -/
lemma discoverFrom_none (env : MinimeEnv) (bal : Rat) (l : List Nat)
    (hsz : ∀ j ∈ l, ∃ s, getMinimeArraySize env j = .ok s)
    (hnq : ∀ j ∈ l, ¬ qualifies env bal j) :
    discoverFrom env bal l = .ok none := by
  have h := discoverFrom_append_skip env bal l [] hsz hnq
  simpa using h

/-- A qualifying candidate at the head of the list is returned with the
oracle balance. -/
lemma discoverFrom_cons_found (env : MinimeEnv) (bal : Rat) (i : Nat) (rest : List Nat)
    (hq : qualifies env bal i) :
    discoverFrom env bal (i :: rest) = .ok (some (i, bal)) := by
  obtain ⟨s, a, b, sl, hs, hpos, hread, hb, ha⟩ := hq
  simp only [discoverFrom, hs, if_neg (not_le.mpr hpos), hread, if_neg hb, if_pos ha]
  rw [ha]

/-- C5: when the balance oracle succeeds and every array-size read in the
discovery range succeeds, `DiscoverSlot` returns the smallest qualifying
candidate (positive array size, successful top-entry read, nonzero
checkpoint block, decoded amount equal to the oracle balance) together
with the matched balance, and fails with "storage slot not found" when no
candidate in the range qualifies. -/
theorem C5_discovery (env : MinimeEnv) (bal : Rat)
    (hbal : env.balance = .ok bal)
    (hsz : ∀ j, j < maxIterationsForDiscover → ∃ s, getMinimeArraySize env j = .ok s) :
    (∀ i, i < maxIterationsForDiscover → qualifies env bal i →
      (∀ j, j < i → ¬ qualifies env bal j) → DiscoverSlot env = .ok (i, bal)) ∧
    ((∀ j, j < maxIterationsForDiscover → ¬ qualifies env bal j) →
      DiscoverSlot env = .error "storage slot not found") := by
  constructor
  · intro i hi hq hmin
    have hsplit : ∃ tail, List.range maxIterationsForDiscover = List.range i ++ i :: tail := by
      refine ⟨((List.range (maxIterationsForDiscover - i - 1)).map Nat.succ).map
        (fun x => i + x), ?_⟩
      have h1 : maxIterationsForDiscover = i + ((maxIterationsForDiscover - i - 1) + 1) := by
        unfold maxIterationsForDiscover at hi ⊢
        omega
      rw [h1, List.range_add, List.range_succ_eq_map, List.map_cons]
      simp
    obtain ⟨tail, htail⟩ := hsplit
    have hfound : discoverFrom env bal (List.range maxIterationsForDiscover)
        = .ok (some (i, bal)) := by
      rw [htail,
        discoverFrom_append_skip env bal (List.range i) (i :: tail)
          (fun j hj => hsz j (lt_trans (List.mem_range.mp hj) hi))
          (fun j hj => hmin j (List.mem_range.mp hj)),
        discoverFrom_cons_found env bal i tail hq]
    unfold DiscoverSlot
    simp only [hbal, hfound]
  · intro hnone
    have hall : discoverFrom env bal (List.range maxIterationsForDiscover) = .ok none :=
      discoverFrom_none env bal _ (fun j hj => hsz j (List.mem_range.mp hj))
        (fun j hj => hnone j (List.mem_range.mp hj))
    unfold DiscoverSlot
    simp only [hbal, hall]

/-- Witness for C5: in the discovery environment candidate 0 qualifies
(length 1, top entry balance 5 at block 1, oracle balance 5) and
`DiscoverSlot` returns it. -/
theorem C5_witness : DiscoverSlot exEnvC5 = .ok (0, 5) := by
  have h := (C5_discovery exEnvC5 5 rfl (fun j hj => ⟨_, rfl⟩)).1 0 (by decide)
    ⟨1, 5, 1, 10000, rfl, by norm_num, rfl, by norm_num, rfl⟩ (fun j hj => absurd hj (by omega))
  exact h

/-- C6 (counterexample): an array-length read failure is not tolerated
per-candidate.  In this environment candidate 0's length read fails with
"boom" and candidate 1 would qualify with balance 5, yet `DiscoverSlot`
aborts with "boom" instead of continuing. -/
theorem C6_counterexample :
    DiscoverSlot exEnvC6 = .error "boom" ∧
      discoverFrom exEnvC6 5 [1] = .ok (some (1, 5)) :=
  ⟨rfl, rfl⟩

/-- C6 (amended): only the top-entry checkpoint read is tolerated
per-candidate.  A failing array-size read at a candidate aborts the loop
with that error (and, at candidate 0, aborts the whole `DiscoverSlot`
call), while a failing `getMinimeAtPosition` read at a candidate with a
positive array size silently skips to the next candidate. -/
theorem C6_amended (env : MinimeEnv) (bal : Rat) (i : Nat) (rest : List Nat) :
    (∀ e, getMinimeArraySize env i = .error e →
      discoverFrom env bal (i :: rest) = .error e) ∧
    (∀ size e, getMinimeArraySize env i = .ok size → 0 < size →
      getMinimeAtPosition env i size none = .error e →
      discoverFrom env bal (i :: rest) = discoverFrom env bal rest) ∧
    (∀ e, env.balance = .ok bal → getMinimeArraySize env 0 = .error e →
      DiscoverSlot env = .error e) := by
  refine ⟨?_, ?_, ?_⟩
  · intro e he
    simp only [discoverFrom, he]
  · intro size e hs hpos hread
    simp only [discoverFrom, hs, if_neg (not_le.mpr hpos), hread]
  · intro e hbal he
    unfold DiscoverSlot
    simp only [hbal]
    rw [show List.range maxIterationsForDiscover = 0 :: (List.range 19).map Nat.succ from
      List.range_succ_eq_map 19]
    simp only [discoverFrom, he]

/-- Witness for C6 (amended): candidate 0 of this environment has length
word 1 but a failing top-entry read, and the loop skips it. -/
theorem C6_witness :
    discoverFrom exEnvC6b 5 (0 :: [1]) = discoverFrom exEnvC6b 5 [1] :=
  (C6_amended exEnvC6b 5 0 [1]).2.1 1 "read failed" rfl (by norm_num) rfl

/-- A successful discovery result was produced by a balance match inside
the loop, so the returned candidate qualifies and the returned amount is
the oracle balance. -/
lemma discoverFrom_ok_some (env : MinimeEnv) (bal : Rat) :
    ∀ (l : List Nat) (i : Nat) (amt : Rat),
      discoverFrom env bal l = .ok (some (i, amt)) →
      qualifies env bal i ∧ amt = bal := by
  intro l
  induction l with
  | nil =>
    intro i amt h
    simp [discoverFrom] at h
  | cons j t ih =>
    intro i amt h
    simp only [discoverFrom] at h
    cases hs : getMinimeArraySize env j with
    | error e => rw [hs] at h; simp at h
    | ok s =>
      rw [hs] at h
      dsimp only at h
      by_cases hle : s ≤ 0
      · rw [if_pos hle] at h; exact ih i amt h
      · rw [if_neg hle] at h
        cases hread : getMinimeAtPosition env j s none with
        | error e =>
          rw [hread] at h
          exact ih i amt h
        | ok trip =>
          obtain ⟨a, b, sl⟩ := trip
          rw [hread] at h
          have h2 : (if b % 2 ^ 64 = 0 then discoverFrom env bal t
              else if a = bal then Except.ok (some (j, a))
              else discoverFrom env bal t) = Except.ok (some (i, amt)) := h
          by_cases hb : b % 2 ^ 64 = 0
          · rw [if_pos hb] at h2; exact ih i amt h2
          · rw [if_neg hb] at h2
            by_cases ha : a = bal
            · rw [if_pos ha] at h2
              simp only [Except.ok.injEq, Option.some.injEq, Prod.mk.injEq] at h2
              obtain ⟨hij, hamt⟩ := h2
              refine ⟨?_, by rw [← hamt, ha]⟩
              rw [← hij]
              exact ⟨s, a, b, sl, hs, by omega, hread, hb, ha⟩
            · rw [if_neg ha] at h2; exact ih i amt h2

/-- C7: `DiscoverSlot` never selects a candidate whose length word reads
as a non-positive size or whose top entry decodes with a zero block
number: every successful result comes from a candidate with a positive
array size whose top entry read succeeded with a nonzero block number and
an amount equal to the returned balance. -/
theorem C7_no_false_positive (env : MinimeEnv) (i : Nat) (amt : Rat)
    (h : DiscoverSlot env = .ok (i, amt)) :
    ∃ size amount mblock slot,
      getMinimeArraySize env i = .ok size ∧ 0 < size ∧
      getMinimeAtPosition env i size none = .ok (amount, mblock, slot) ∧
      mblock % 2 ^ 64 ≠ 0 ∧ mblock ≠ 0 ∧ amount = amt := by
  unfold DiscoverSlot at h
  cases hbal : env.balance with
  | error e => rw [hbal] at h; simp at h
  | ok bal =>
    rw [hbal] at h
    dsimp only at h
    cases hdf : discoverFrom env bal (List.range maxIterationsForDiscover) with
    | error e => rw [hdf] at h; simp at h
    | ok r =>
      rw [hdf] at h
      cases r with
      | none => simp at h
      | some p =>
        obtain ⟨j, a⟩ := p
        simp only [Except.ok.injEq, Prod.mk.injEq] at h
        obtain ⟨hij, hamt⟩ := h
        rw [hij, hamt] at hdf
        obtain ⟨⟨s, amount, mblock, slot, hs, hpos, hread, hb, hab⟩, habal⟩ :=
          discoverFrom_ok_some env bal (List.range maxIterationsForDiscover) i amt hdf
        refine ⟨s, amount, mblock, slot, hs, hpos, hread, hb, by omega, ?_⟩
        rw [hab, ← habal]

/-- Witness for C7: applying the invariant to the successful discovery in
the discovery environment exhibits the qualifying reads of candidate 0. -/
theorem C7_witness :
    ∃ size amount mblock slot,
      getMinimeArraySize exEnvC5 0 = .ok size ∧ 0 < size ∧
      getMinimeAtPosition exEnvC5 0 size none = .ok (amount, mblock, slot) ∧
      mblock % 2 ^ 64 ≠ 0 ∧ mblock ≠ 0 ∧ amount = 5 :=
  C7_no_false_positive exEnvC5 0 5 rfl

/-! ## Claim C8: decoding the array-length word -/

/-- Stripping leading zero bytes does not change the unsigned big-endian
value of a word. -/
lemma bytesToNat_trimLeftZeroes : ∀ w : Word, bytesToNat (trimLeftZeroes w) = bytesToNat w := by
  intro w
  induction w with
  | nil => rfl
  | cons b t ih =>
    by_cases hb : b = 0
    · rw [hb]
      have h1 : trimLeftZeroes (0 :: t) = trimLeftZeroes t := by
        simp [trimLeftZeroes, List.dropWhile]
      rw [h1, ih]
      show bytesToNat t = bytesToNat (0 :: t)
      simp [bytesToNat]
    · have hbeq : (b == 0) = false := beq_eq_false_iff_ne.mpr hb
      have h1 : trimLeftZeroes (b :: t) = b :: t := by
        simp [trimLeftZeroes, List.dropWhile, hbeq]
      rw [h1]

/-- C8 (counterexample): the decode of the array-length word is not the
stripped unsigned big-endian value for every 32-byte word.  For the
32-byte word with value `2 ^ 64`, `getMinimeArraySize` returns 0 (the
value truncated by `Uint64`), not `2 ^ 64`. -/
theorem C8_counterexample :
    getMinimeArraySize exEnv8 0 = .ok 0 ∧
      bytesToNat (trimLeftZeroes exWord8) = 2 ^ 64 ∧
      exWord8.length = 32 :=
  ⟨rfl, by decide, by decide⟩

/-- C8 (amended): the length decode equals the word's value interpreted
as an unsigned big-endian integer after stripping leading zero bytes
(which does not change the value), and is non-negative, whenever that
value fits below `2 ^ 63`; in general the value is truncated to its low
64 bits and reinterpreted as a signed 64-bit integer. -/
theorem C8_amended (env : MinimeEnv) (islot : Nat) (w : Word)
    (h : env.storageAt (env.mapSlot islot) none = .ok w)
    (hsmall : bytesToNat w < 2 ^ 63) :
    getMinimeArraySize env islot = .ok ((bytesToNat w : Int)) ∧
      0 ≤ arraySizeOfWord w ∧
      bytesToNat (trimLeftZeroes w) = bytesToNat w := by
  have htrim := bytesToNat_trimLeftZeroes w
  have hval : arraySizeOfWord w = ((bytesToNat w : Nat) : Int) := by
    unfold arraySizeOfWord int64OfUint64
    rw [htrim, Nat.mod_eq_of_lt (lt_trans hsmall (by norm_num)), if_pos hsmall]
  refine ⟨?_, by rw [hval]; exact Int.natCast_nonneg _, htrim⟩
  unfold getMinimeArraySize
  simp only [h, hval]

/-- Witness for C8 (amended): a length word holding 3 decodes to size 3. -/
theorem C8_witness : getMinimeArraySize exEnv8b 0 = .ok 3 := by
  have h := (C8_amended exEnv8b 0 [3] rfl (by decide)).1
  exact h

/-! ## Claim C9: metadata placeholders -/

/-- C9: a `name`/`symbol` failure whose error mentions "unmarshal an empty
string" degrades to the fixed placeholder and `GetTokenData` still
succeeds (when the remaining calls succeed); any other `name`/`symbol`
failure, and every `decimals` or `totalSupply` failure, makes
`GetTokenData` return an error. -/
theorem C9_metadata_fallbacks (c : TokenCalls) :
    (∀ e s d t, c.tokenName = .error e →
      strContains e "unmarshal an empty string" = true →
      c.tokenSymbol = .ok s → c.tokenDecimals = .ok d → c.tokenTotalSupply = .ok t →
      GetTokenData c = .ok ⟨"unknown-name", s, d, t⟩) ∧
    (∀ n e d t, c.tokenName = .ok n → c.tokenSymbol = .error e →
      strContains e "unmarshal an empty string" = true →
      c.tokenDecimals = .ok d → c.tokenTotalSupply = .ok t →
      GetTokenData c = .ok ⟨n, "unknown-symbol", d, t⟩) ∧
    (∀ e1 e2 d t, c.tokenName = .error e1 →
      strContains e1 "unmarshal an empty string" = true →
      c.tokenSymbol = .error e2 →
      strContains e2 "unmarshal an empty string" = true →
      c.tokenDecimals = .ok d → c.tokenTotalSupply = .ok t →
      GetTokenData c = .ok ⟨"unknown-name", "unknown-symbol", d, t⟩) ∧
    (∀ e, c.tokenName = .error e →
      strContains e "unmarshal an empty string" = false →
      GetTokenData c = .error ("unable to get token name data: " ++ e)) ∧
    (∀ e, c.tokenSymbol = .error e →
      strContains e "unmarshal an empty string" = false →
      ∃ e2, GetTokenData c = .error e2) ∧
    (∀ e, c.tokenDecimals = .error e → ∃ e2, GetTokenData c = .error e2) ∧
    (∀ e, c.tokenTotalSupply = .error e → ∃ e2, GetTokenData c = .error e2) := by
  refine ⟨?_, ?_, ?_, ?_, ?_, ?_, ?_⟩
  · intro e s d t hn hc hs hd ht
    simp only [GetTokenData, hn, hc, hs, hd, ht, if_true]
  · intro n e d t hn hs hc hd ht
    simp only [GetTokenData, hn, hs, hc, hd, ht, if_true]
  · intro e1 e2 d t hn hc1 hs hc2 hd ht
    simp only [GetTokenData, hn, hc1, hs, hc2, hd, ht, if_true]
  · intro e hn hc
    simp only [GetTokenData, hn, hc, Bool.false_eq_true, if_false]
  · intro e hs hc
    unfold GetTokenData
    rcases hn : c.tokenName with e1 | n <;>
      simp only [hn, hs, hc, Bool.false_eq_true, if_false] <;>
      (try split_ifs) <;>
      exact ⟨_, rfl⟩
  · intro e hd
    unfold GetTokenData
    rcases hn : c.tokenName with e1 | n <;>
      rcases hs : c.tokenSymbol with e2 | s <;>
      simp only [hn, hs, hd] <;>
      (try split_ifs) <;>
      exact ⟨_, rfl⟩
  · intro e ht
    unfold GetTokenData
    rcases hn : c.tokenName with e1 | n <;>
      rcases hs : c.tokenSymbol with e2 | s <;>
      rcases hd : c.tokenDecimals with e3 | d <;>
      simp only [hn, hs, hd, ht] <;>
      (try split_ifs) <;>
      exact ⟨_, rfl⟩

/-- Witness for C9: a `name` call failing with the ABI
decode-of-empty-result error yields the "unknown-name" placeholder while
the remaining fields are filled from the successful calls. -/
theorem C9_witness :
    GetTokenData exCalls9 = .ok ⟨"unknown-name", "TKN", 18, 1000000⟩ := by
  have h := (C9_metadata_fallbacks exCalls9).1
  exact h "abi: attempting to unmarshal an empty string while arguments are expected"
    "TKN" 18 1000000 rfl (by decide) rfl rfl rfl

end EthStorage
